import Mathlib

/-!
Verification of the unified log parser (`bot/parsers/unified_log_parser.py`)
of the Emerald's Killfeed repository.

The Python source is shallowly embedded: dictionaries become association
lists over `String` keys, timestamps become a `Nat` parameter threaded
through each call, network / database side effects become explicit traces
of `Action` values, and regular-expression matching is abstracted by a
`LogLine` record carrying, for each pattern of `_compile_unified_patterns`
that can produce an event, the capture groups of its match on that line
(`none` when the pattern does not match).  Pure string manipulation
(`normalize_mission_name`) is embedded directly over `List Char`,
mirroring Python `str` semantics for the operations used
(`replace`, `split`, `capitalize`, `isalpha`, substring membership).
-/

namespace UnifiedLogParser

/-! ## Python dict as association list -/

/-- Lookup in a Python dict (`d.get(k)` / `d[k]`), modelled on an
association list: first binding wins. -/
def dfind {α : Type} (k : String) : List (String × α) → Option α
  | [] => none
  | (k', v) :: rest => if k = k' then some v else dfind k rest

/-- Python dict assignment `d[k] = v`: replaces the binding in place if the
key is present, appends it otherwise (insertion-order semantics). -/
def dinsert {α : Type} (k : String) (v : α) : List (String × α) → List (String × α)
  | [] => [(k, v)]
  | (k', v') :: rest => if k = k' then (k, v) :: rest else (k', v') :: dinsert k v rest

theorem dfind_dinsert_self {α : Type} (k : String) (v : α) (d : List (String × α)) :
    dfind k (dinsert k v d) = some v := by
  induction d with
  | nil => simp [dfind, dinsert]
  | cons hd tl ih =>
    obtain ⟨k', v'⟩ := hd
    by_cases hk : k = k' <;> simp [dfind, dinsert, hk, ih]

theorem dfind_dinsert_ne {α : Type} {k k' : String} (v : α) (d : List (String × α))
    (h : k' ≠ k) : dfind k' (dinsert k v d) = dfind k' d := by
  induction d with
  | nil => simp [dfind, dinsert, h]
  | cons hd tl ih =>
    obtain ⟨k0, v0⟩ := hd
    by_cases hk : k = k0
    · subst hk
      simp [dfind, dinsert, h]
    · by_cases hk' : k' = k0 <;> simp [dfind, dinsert, hk, hk', ih]

/-! ## Python string primitives used by the source -/

/-- Boolean list-prefix test (used to model `str.startswith` and `in`). -/
def isPrefixB : List Char → List Char → Bool
  | [], _ => true
  | _ :: _, [] => false
  | a :: as, b :: bs => if a = b then isPrefixB as bs else false

/-- Python substring membership `needle in hay`. -/
def containsSub (needle : List Char) : List Char → Bool
  | [] => needle.isEmpty
  | c :: rest => isPrefixB needle (c :: rest) || containsSub needle rest

/-- Python `needle in hay` on `String`. -/
def pyIn (needle hay : String) : Bool := containsSub needle.data hay.data

/-- Python `s.startswith(pre)` on `String`. -/
def pyStartsWith (s pre : String) : Bool := isPrefixB pre.data s.data

/-- One fuel-indexed step of Python `str.replace` (all non-overlapping
occurrences, scanning left to right); fuel bounds the scan length. -/
def pyReplaceAux (old new : List Char) : Nat → List Char → List Char
  | 0, s => s
  | _, [] => []
  | fuel + 1, c :: rest =>
      if isPrefixB old (c :: rest) then
        new ++ pyReplaceAux old new fuel (List.drop (old.length - 1) rest)
      else
        c :: pyReplaceAux old new fuel rest

/-- Python `s.replace(old, new)` for a non-empty `old` (the only way the
source calls it). -/
def pyReplace (s old new : List Char) : List Char := pyReplaceAux old new s.length s

/-- Python `s.split('_')`. -/
def splitUnd : List Char → List (List Char)
  | [] => [[]]
  | c :: rest =>
      let r := splitUnd rest
      if c = '_' then [] :: r
      else
        match r with
        | [] => [[c]]
        | h :: t => (c :: h) :: t

/-- Python `s.capitalize()`: first character uppercased, the rest
lowercased (ASCII, which covers every input the source feeds it). -/
def pyCapitalize : List Char → List Char
  | [] => []
  | c :: rest => c.toUpper :: rest.map Char.toLower

/-- Python `s.isalpha()` restricted to ASCII letters (all inputs the
source feeds it are ASCII). -/
def pyIsAlpha (s : List Char) : Bool := !s.isEmpty && s.all Char.isAlpha

/-- Python `' '.join` over `List Char` words. -/
def joinSpace : List (List Char) → List Char
  | [] => []
  | [w] => w
  | w :: rest => w ++ ' ' :: joinSpace rest

/-- Decimal digit list of a natural number, fuel-indexed so that it
reduces definitionally (fuel `n + 1` always suffices). -/
def natToCharsAux : Nat → Nat → List Char
  | 0, _ => []
  | fuel + 1, n =>
      if n < 10 then [Nat.digitChar n]
      else natToCharsAux fuel (n / 10) ++ [Nat.digitChar (n % 10)]

/-- The decimal digit list of `n`, i.e. the characters of Python
`str(n)` for a non-negative integer. -/
def natToChars (n : Nat) : List Char := natToCharsAux (n + 1) n

/-- Python `str(n)` for a non-negative integer (guild ids, ports). -/
def natStr (n : Nat) : String := String.mk (natToChars n)

/-- Reading a decimal digit list back (left inverse of `natToChars`). -/
def charsToNat (l : List Char) : Nat :=
  l.foldl (fun acc c => 10 * acc + (c.toNat - 48)) 0

theorem charsToNat_append_digit (a : List Char) (c : Char) :
    charsToNat (a ++ [c]) = 10 * charsToNat a + (c.toNat - 48) := by
  simp [charsToNat, List.foldl_append]

theorem natToCharsAux_spec (fuel : Nat) :
    ∀ n, n < fuel → charsToNat (natToCharsAux fuel n) = n := by
  induction fuel with
  | zero => intro n h; omega
  | succ f ih =>
    intro n h
    by_cases h10 : n < 10
    · have hd : ∀ m, m < 10 → (Nat.digitChar m).toNat - 48 = m := by decide
      simp [natToCharsAux, h10, charsToNat, hd n h10]
    · have hrec : n / 10 < f := by omega
      have hmod : n % 10 < 10 := Nat.mod_lt _ (by omega)
      have hd : ∀ m, m < 10 → (Nat.digitChar m).toNat - 48 = m := by decide
      simp only [natToCharsAux, h10, if_false]
      rw [charsToNat_append_digit, ih _ hrec, hd _ hmod]
      omega

theorem charsToNat_natToChars (n : Nat) : charsToNat (natToChars n) = n :=
  natToCharsAux_spec (n + 1) n (Nat.lt_succ_self n)

theorem natToChars_injective : Function.Injective natToChars := by
  intro a b h
  have := charsToNat_natToChars a
  rw [h, charsToNat_natToChars] at this
  exact this.symm

theorem natToCharsAux_digits (fuel : Nat) :
    ∀ n, n < fuel → ∀ c ∈ natToCharsAux fuel n, c.isDigit = true := by
  induction fuel with
  | zero => intro n h; omega
  | succ f ih =>
    intro n h c hc
    have hd : ∀ m, m < 10 → (Nat.digitChar m).isDigit = true := by decide
    by_cases h10 : n < 10
    · simp [natToCharsAux, h10] at hc
      subst hc; exact hd n h10
    · simp only [natToCharsAux, h10, if_false, List.mem_append, List.mem_singleton] at hc
      rcases hc with hc | hc
      · exact ih (n / 10) (by omega) c hc
      · subst hc; exact hd (n % 10) (Nat.mod_lt _ (by omega))

theorem natToChars_digits (n : Nat) : ∀ c ∈ natToChars n, c.isDigit = true :=
  natToCharsAux_digits (n + 1) n (Nat.lt_succ_self n)

theorem underscore_not_mem_natToChars (n : Nat) : '_' ∉ natToChars n := by
  intro h
  have := natToChars_digits n '_' h
  simp [Char.isDigit] at this

/-! ## Mission normalization (`_get_complete_mission_mappings`,
`normalize_mission_name`, `get_mission_level`) -/

/-- The complete mission-id → readable-name table returned by
`_get_complete_mission_mappings`, verbatim. -/
def mission_mappings : List (String × String) :=
  [ ("GA_Airport_mis_01_SFPSACMission", "Airport Mission #1"),
    ("GA_Airport_mis_02_SFPSACMission", "Airport Mission #2"),
    ("GA_Airport_mis_03_SFPSACMission", "Airport Mission #3"),
    ("GA_Airport_mis_04_SFPSACMission", "Airport Mission #4"),
    ("GA_Beregovoy_Mis1", "Beregovoy Settlement Mission"),
    ("GA_Settle_05_ChernyLog_Mis1", "Cherny Log Settlement Mission"),
    ("GA_Settle_09_Mis_1", "Settlement Mission #9"),
    ("GA_Military_02_Mis1", "Military Base Mission #2"),
    ("GA_Military_03_Mis_01", "Military Base Mission #3"),
    ("GA_Military_04_Mis1", "Military Base Mission #4"),
    ("GA_Military_04_Mis_2", "Military Base Mission #4B"),
    ("GA_Ind_01_m1", "Industrial Zone Mission #1"),
    ("GA_Ind_02_Mis_1", "Industrial Zone Mission #2"),
    ("GA_PromZone_6_Mis_1", "Industrial Zone Mission #6"),
    ("GA_PromZone_Mis_01", "Industrial Zone Mission A"),
    ("GA_PromZone_Mis_02", "Industrial Zone Mission B"),
    ("GA_KhimMash_Mis_01", "Chemical Plant Mission #1"),
    ("GA_KhimMash_Mis_02", "Chemical Plant Mission #2"),
    ("GA_Kamensk_Ind_3_Mis_1", "Kamensk Industrial Mission"),
    ("GA_Kamensk_Mis_1", "Kamensk City Mission #1"),
    ("GA_Kamensk_Mis_2", "Kamensk City Mission #2"),
    ("GA_Kamensk_Mis_3", "Kamensk City Mission #3"),
    ("GA_Krasnoe_Mis_1", "Krasnoe City Mission"),
    ("GA_Vostok_Mis_1", "Vostok City Mission"),
    ("GA_Bunker_01_Mis1", "Underground Bunker Mission"),
    ("GA_Lighthouse_02_Mis1", "Lighthouse Mission #2"),
    ("GA_Elevator_Mis_1", "Elevator Complex Mission #1"),
    ("GA_Elevator_Mis_2", "Elevator Complex Mission #2"),
    ("GA_Sawmill_01_Mis1", "Sawmill Mission #1"),
    ("GA_Sawmill_02_1_Mis1", "Sawmill Mission #2A"),
    ("GA_Sawmill_03_Mis_01", "Sawmill Mission #3"),
    ("GA_Bochki_Mis_1", "Barrel Storage Mission"),
    ("GA_Dubovoe_0_Mis_1", "Dubovoe Resource Mission") ]

/-- Python `mission_id.split('_')[-1]` (`split('_')` on any string is
non-empty, so `[-1]` is its last element). -/
def lastSeg (s : String) : String := String.mk ((splitUnd s.data).getLastD [])

/-- `normalize_mission_name`: exact table hit first, then the substring
fallbacks, then the capitalized-segment fallback. -/
def normalize_mission_name (mission_id : String) : String :=
  match dfind mission_id mission_mappings with
  | some name => name
  | none =>
    if pyIn "_Airport_" mission_id then
      "Airport Mission (" ++ lastSeg mission_id ++ ")"
    else if pyIn "_Military_" mission_id then
      "Military Mission (" ++ lastSeg mission_id ++ ")"
    else if pyIn "_Settle_" mission_id then
      "Settlement Mission (" ++ lastSeg mission_id ++ ")"
    else if pyIn "_Ind_" mission_id || pyIn "_PromZone_" mission_id then
      "Industrial Mission (" ++ lastSeg mission_id ++ ")"
    else if pyIn "_KhimMash_" mission_id then
      "Chemical Plant Mission (" ++ lastSeg mission_id ++ ")"
    else if pyIn "_Bunker_" mission_id then
      "Bunker Mission (" ++ lastSeg mission_id ++ ")"
    else if pyIn "_Sawmill_" mission_id then
      "Sawmill Mission (" ++ lastSeg mission_id ++ ")"
    else
      let parts := splitUnd (pyReplace (pyReplace (pyReplace mission_id.data
        "GA_".data []) "_Mis".data []) "_mis".data [])
      let readable_parts := (parts.filter pyIsAlpha).map pyCapitalize
      if readable_parts.isEmpty then
        "Special Mission (" ++ mission_id ++ ")"
      else
        String.mk (joinSpace readable_parts) ++ " Mission"

/-- Python `s.lower()` (ASCII). -/
def pyLower (s : String) : String := String.mk (s.data.map Char.toLower)

/-- `get_mission_level`: difficulty tier from substring membership. -/
def get_mission_level (mission_id : String) : Nat :=
  let low := pyLower mission_id
  if pyIn "military" low || pyIn "bunker" low || pyIn "khimmash" low then 5
  else if pyIn "airport" low || pyIn "promzone" low || pyIn "kamensk" low then 4
  else if pyIn "ind_" low || pyIn "industrial" low then 3
  else if pyIn "sawmill" low || pyIn "lighthouse" low || pyIn "elevator" low then 2
  else 1

/-- C8: `normalize_mission_name('GA_Airport_mis_01_SFPSACMission')` is the
exact table entry `'Airport Mission #1'`, and the unmapped id
`'GA_Foo_Bar_Mis_1'` (matching none of the special substrings) yields a
generated name containing the capitalized segments `'Foo'` and `'Bar'`. -/
theorem mission_normalization_spec :
    normalize_mission_name "GA_Airport_mis_01_SFPSACMission" = "Airport Mission #1" ∧
    pyIn "Foo" (normalize_mission_name "GA_Foo_Bar_Mis_1") = true ∧
    pyIn "Bar" (normalize_mission_name "GA_Foo_Bar_Mis_1") = true := by
  refine ⟨by decide, by decide, by decide⟩

/-! ## Tenant keys (`f"{guild_id}_{server_id}"`) -/

/-- The per-tenant dictionary key `f"{guild_id}_{server_id}"` used by
`parse_server_logs`, `parse_log_content`, `get_guild_server_state` and
the state dictionaries of `__init__`. -/
def server_key (guild_id : Nat) (server_id : String) : String :=
  natStr guild_id ++ "_" ++ server_id

theorem string_data_append (a b : String) : (a ++ b).data = a.data ++ b.data := by
  cases a; cases b; rfl

theorem append_underscore_inj :
    ∀ (a1 : List Char) (a2 b1 b2 : List Char), '_' ∉ a1 → '_' ∉ a2 →
      a1 ++ '_' :: b1 = a2 ++ '_' :: b2 → a1 = a2 ∧ b1 = b2 := by
  intro a1
  induction a1 with
  | nil =>
    intro a2 b1 b2 _ h2 h
    cases a2 with
    | nil => simpa using h
    | cons c rest =>
      simp only [List.nil_append, List.cons_append, List.cons.injEq] at h
      exact absurd h.1 (by simp at h2; exact h2.1)
  | cons c rest ih =>
    intro a2 b1 b2 h1 h2 h
    cases a2 with
    | nil =>
      simp only [List.cons_append, List.nil_append, List.cons.injEq] at h
      exact absurd (List.mem_cons_self c rest) (h.1 ▸ h1)
    | cons c' rest' =>
      simp only [List.cons_append, List.cons.injEq] at h
      obtain ⟨hc, hrest⟩ := h
      have := ih rest' b1 b2 (fun hm => h1 (List.mem_cons_of_mem c hm))
        (fun hm => h2 (List.mem_cons_of_mem c' hm)) hrest
      exact ⟨by rw [hc, this.1], this.2⟩

/-- C9: the key-construction function `guildId + '_' + serverId` is
injective over tenant pairs (server ids may contain underscores; the
decimal guild-id part never does), so no two distinct tenants ever share
a dictionary slot in the per-tenant state dictionaries. -/
theorem server_key_injective (g1 g2 : Nat) (s1 s2 : String)
    (h : server_key g1 s1 = server_key g2 s2) : g1 = g2 ∧ s1 = s2 := by
  have hdata : natToChars g1 ++ '_' :: s1.data = natToChars g2 ++ '_' :: s2.data := by
    have h' := congrArg String.data h
    simpa [server_key, string_data_append, natStr] using h'
  have := append_underscore_inj (natToChars g1) (natToChars g2) s1.data s2.data
    (underscore_not_mem_natToChars g1) (underscore_not_mem_natToChars g2) hdata
  refine ⟨natToChars_injective this.1, ?_⟩
  cases s1; cases s2; exact congrArg String.mk this.2

/-- Witness for C9 at a concrete tenant pair. -/
theorem server_key_injective_witness : (7 : Nat) = 7 ∧ "srv_a" = "srv_a" :=
  server_key_injective 7 7 "srv_a" "srv_a" rfl

/-! ## SFTP connection pool (`get_sftp_connection`) -/

/-- An `asyncssh.SSHClientConnection` handle, abstracted to an identity
and its `is_closed()` status. -/
structure Conn where
  id : Nat
  closed : Bool
  deriving DecidableEq, Repr

/-- The subset of a server config document read by `get_sftp_connection`:
`host`, `port` (default 22), `username`, `password`.  `none` models an
absent key; Python's `all([...])` truthiness also rejects empty strings,
captured by `truthyStr`. -/
structure SftpConfig where
  host : Option String
  port : Option Nat
  username : Option String
  password : Option String

/-- Python truthiness of an optional string (`None` and `''` are falsy). -/
def truthyStr : Option String → Bool
  | none => false
  | some s => !s.isEmpty

/-- Observable side effects of one `get_sftp_connection` call. -/
inductive SftpAction where
  | connectAttempt (host : String) (port : Nat) (username : String) (timeoutSecs : Nat)
  | sleep (seconds : Nat)
  deriving DecidableEq, Repr

/-- The pool key `f"{sftp_host}:{sftp_port}:{sftp_username}"`. -/
def pool_key (host : String) (port : Nat) (username : String) : String :=
  host ++ ":" ++ natStr port ++ ":" ++ username

/-- The `for attempt in range(3)` retry loop of `get_sftp_connection`.
`oracle attempt` is the outcome of the `asyncssh.connect` call of that
attempt (`none` = `TimeoutError`/`asyncssh.Error`); `remaining` counts
the attempts left (`3 - attempt`). -/
def connect_loop (key host username : String) (port : Nat) (oracle : Nat → Option Conn)
    (pool : List (String × Conn)) :
    Nat → Nat → List (String × Conn) × Option Conn × List SftpAction
  | _, 0 => (pool, none, [])
  | attempt, r + 1 =>
      let acts := [SftpAction.connectAttempt host port username 30]
      match oracle attempt with
      | some c => (dinsert key c pool, some c, acts)
      | none =>
          let sleepActs := if attempt < 2 then [SftpAction.sleep (2 ^ attempt)] else []
          let rec0 := connect_loop key host username port oracle pool (attempt + 1) r
          (rec0.1, rec0.2.1, acts ++ sleepActs ++ rec0.2.2)

/-- `get_sftp_connection`: credential check, pooled-handle validation with
lazy eviction of closed handles, then up to three fresh connect attempts
with exponential backoff.  Returns the updated pool, the result
(`none` = the Python `return None`), and the action trace. -/
def get_sftp_connection (pool : List (String × Conn)) (cfg : SftpConfig)
    (oracle : Nat → Option Conn) :
    List (String × Conn) × Option Conn × List SftpAction :=
  if truthyStr cfg.host && truthyStr cfg.username && truthyStr cfg.password then
    let host := cfg.host.getD ""
    let username := cfg.username.getD ""
    let port := cfg.port.getD 22
    let key := pool_key host port username
    match dfind key pool with
    | some c =>
        if !c.closed then (pool, some c, [])
        else
          -- `del self.sftp_connections[pool_key]`, then fall through to the loop
          connect_loop key host username port oracle
            (pool.filter (fun kv => kv.1 ≠ key)) 0 3
    | none => connect_loop key host username port oracle pool 0 3
  else
    (pool, none, [])

/-- Number of connect attempts in a trace. -/
def countAttempts (tr : List SftpAction) : Nat :=
  tr.countP (fun a => match a with
    | SftpAction.connectAttempt _ _ _ _ => true
    | _ => false)

/-- The sleep durations of a trace, in order. -/
def sleepsOf (tr : List SftpAction) : List Nat :=
  tr.filterMap (fun a => match a with
    | SftpAction.sleep s => some s
    | _ => none)

/-- No live handle is pooled under `key`: either no entry, or the entry
reports closed. -/
def noLiveHandle (pool : List (String × Conn)) (key : String) : Prop :=
  ∀ c, dfind key pool = some c → c.closed = true

/-- C6: with host, username and password present and no live pooled
handle under the `(host, port, username)` key, acquisition makes at most
3 connect attempts, each with a 30-second timeout; it sleeps exactly
`2^attempt` seconds after failed attempts 1 and 2 (1s, 2s) and never
after the last; a successful connection is stored in the pool under its
key and returned; exhausting all 3 attempts returns `None`. -/
theorem sftp_acquisition_spec (pool : List (String × Conn)) (cfg : SftpConfig)
    (oracle : Nat → Option Conn)
    (hcred : truthyStr cfg.host = true ∧ truthyStr cfg.username = true ∧
      truthyStr cfg.password = true)
    (hkey : noLiveHandle pool
      (pool_key (cfg.host.getD "") (cfg.port.getD 22) (cfg.username.getD ""))) :
    let key := pool_key (cfg.host.getD "") (cfg.port.getD 22) (cfg.username.getD "")
    let out := get_sftp_connection pool cfg oracle
    countAttempts out.2.2 ≤ 3 ∧
    (∀ a ∈ out.2.2, ∀ h p u t, a = SftpAction.connectAttempt h p u t →
      h = cfg.host.getD "" ∧ p = cfg.port.getD 22 ∧ u = cfg.username.getD "" ∧ t = 30) ∧
    (∀ c, out.2.1 = some c → dfind key out.1 = some c) ∧
    (oracle 0 = none → oracle 1 = none → oracle 2 = none →
      out.2.1 = none ∧ sleepsOf out.2.2 = [1, 2] ∧ countAttempts out.2.2 = 3) ∧
    (∀ c, oracle 0 = some c → sleepsOf out.2.2 = [] ∧ countAttempts out.2.2 = 1) ∧
    (∀ c, oracle 0 = none → oracle 1 = some c →
      sleepsOf out.2.2 = [1] ∧ countAttempts out.2.2 = 2) ∧
    (∀ c, oracle 0 = none → oracle 1 = none → oracle 2 = some c →
      sleepsOf out.2.2 = [1, 2] ∧ countAttempts out.2.2 = 3) := by
  obtain ⟨h1, h2, h3⟩ := hcred
  simp only [get_sftp_connection, h1, h2, h3, Bool.and_self, if_true]
  rcases hpool : dfind (pool_key (cfg.host.getD "") (cfg.port.getD 22) (cfg.username.getD ""))
      pool with _ | c
  · rcases ho0 : oracle 0 with _ | c0 <;> rcases ho1 : oracle 1 with _ | c1 <;>
      rcases ho2 : oracle 2 with _ | c2 <;>
      simp_all [connect_loop, countAttempts, sleepsOf, dfind_dinsert_self]
  · have hc : c.closed = true := hkey c hpool
    simp only [hpool, hc]
    rcases ho0 : oracle 0 with _ | c0 <;> rcases ho1 : oracle 1 with _ | c1 <;>
      rcases ho2 : oracle 2 with _ | c2 <;>
      simp_all [connect_loop, countAttempts, sleepsOf, dfind_dinsert_self]

/-- Witness for C6: empty pool, full credentials, every attempt failing. -/
theorem sftp_acquisition_spec_witness :
    let cfg : SftpConfig := ⟨some "h1", some 22, some "u1", some "pw"⟩
    let oracle : Nat → Option Conn := fun _ => none
    let key := pool_key "h1" 22 "u1"
    let out := get_sftp_connection [] cfg oracle
    countAttempts out.2.2 ≤ 3 ∧
    (∀ a ∈ out.2.2, ∀ h p u t, a = SftpAction.connectAttempt h p u t →
      h = "h1" ∧ p = 22 ∧ u = "u1" ∧ t = 30) ∧
    (∀ c, out.2.1 = some c → dfind key out.1 = some c) ∧
    (oracle 0 = none → oracle 1 = none → oracle 2 = none →
      out.2.1 = none ∧ sleepsOf out.2.2 = [1, 2] ∧ countAttempts out.2.2 = 3) ∧
    (∀ c, oracle 0 = some c → sleepsOf out.2.2 = [] ∧ countAttempts out.2.2 = 1) ∧
    (∀ c, oracle 0 = none → oracle 1 = some c →
      sleepsOf out.2.2 = [1] ∧ countAttempts out.2.2 = 2) ∧
    (∀ c, oracle 0 = none → oracle 1 = none → oracle 2 = some c →
      sleepsOf out.2.2 = [1, 2] ∧ countAttempts out.2.2 = 3) :=
  sftp_acquisition_spec [] ⟨some "h1", some 22, some "u1", some "pw"⟩ (fun _ => none)
    ⟨by decide, by decide, by decide⟩ (fun c h => by simp [dfind] at h)

/-! ## Channel resolution (`get_server_channel`) -/

/-- Python truthiness of an optional channel id (`None` and `0` falsy). -/
def truthyNat : Option Nat → Bool
  | none => false
  | some n => n != 0

/-- The parts of a guild config document read by `get_server_channel`:
`server_channels` (server id → channel type → channel id) and the legacy
`channels` (channel type → channel id). -/
structure GuildConfig where
  server_channels : List (String × List (String × Nat))
  channels : List (String × Nat)

/-- `get_server_channel` for a present guild config (the `None`-config
and exception paths return `None` immediately): priority 1 server-specific
entry, priority 2 `'default'` entry, priority 3 killfeed fallback chain,
priority 4 legacy entry for the requested type, priority 5 legacy
killfeed. -/
def get_server_channel (gc : GuildConfig) (server_id channel_type : String) : Option Nat :=
  let sc := gc.server_channels
  let p1 := (dfind server_id sc).bind (dfind channel_type)
  if truthyNat p1 then p1
  else
    let p2 := (dfind "default" sc).bind (dfind channel_type)
    if truthyNat p2 then p2
    else
      let k1 := (dfind server_id sc).bind (dfind "killfeed")
      let k2 := (dfind "default" sc).bind (dfind "killfeed")
      let k3 := dfind "killfeed" gc.channels
      let fallback := if truthyNat k1 then k1 else if truthyNat k2 then k2 else k3
      if channel_type != "killfeed" && truthyNat fallback then fallback
      else
        let legacy := dfind channel_type gc.channels
        if truthyNat legacy then legacy
        else
          let legacyKillfeed := dfind "killfeed" gc.channels
          if channel_type != "killfeed" && truthyNat legacyKillfeed then legacyKillfeed
          else none

/-- First truthy entry of a candidate chain (`none` if all falsy). -/
def firstTruthy : List (Option Nat) → Option Nat
  | [] => none
  | o :: rest => if truthyNat o then o else firstTruthy rest

/-- The resolution chain `get_server_channel` actually implements for a
non-killfeed channel type, in consultation order. -/
def fallback_chain (gc : GuildConfig) (server_id channel_type : String) : List (Option Nat) :=
  [ (dfind server_id gc.server_channels).bind (dfind channel_type),
    (dfind "default" gc.server_channels).bind (dfind channel_type),
    (dfind server_id gc.server_channels).bind (dfind "killfeed"),
    (dfind "default" gc.server_channels).bind (dfind "killfeed"),
    dfind "killfeed" gc.channels,
    dfind channel_type gc.channels ]

/-- A config with only a legacy-global `connections` channel (100) and a
legacy-global `killfeed` channel (200): no server-specific and no default
entries. -/
def legacyOnlyConfig : GuildConfig :=
  { server_channels := [], channels := [("connections", 100), ("killfeed", 200)] }

/-- C7 counterexample: with only legacy-global channels configured —
`connections = 100`, `killfeed = 200` — resolving `'connections'` yields
the catch-all killfeed channel `200`, not the legacy-global
`connections` entry `100`: the catch-all ('killfeed') chain is consulted
*before* the legacy-global entry for the requested type, falsifying the
claimed order. -/
theorem channel_fallback_counterexample :
    dfind "connections" legacyOnlyConfig.channels = some 100 ∧
    get_server_channel legacyOnlyConfig "srv1" "connections" = some 200 := by
  constructor <;> decide

/-- C7 amended: resolution follows the chain server-specific →
tenant-wide default → catch-all ('killfeed') chain (server-specific,
default, legacy killfeed) → legacy-global entry for the requested type →
none; in particular a tenant with only a legacy global `connections`
channel configured (no server-specific entry, no default entry, and no
catch-all channel anywhere) still resolves connection events to that
legacy channel. -/
theorem channel_fallback_chain_spec (gc : GuildConfig) (server_id channel_type : String)
    (hkt : channel_type ≠ "killfeed") :
    get_server_channel gc server_id channel_type =
      firstTruthy (fallback_chain gc server_id channel_type) ∧
    get_server_channel ⟨[], [("connections", 100)]⟩ "srv1" "connections" = some 100 := by
  constructor
  · have hkt' : (channel_type != "killfeed") = true := by
      simp [bne_iff_ne, hkt]
    simp only [get_server_channel, fallback_chain, firstTruthy, hkt', Bool.true_and]
    rcases h1 : truthyNat ((dfind server_id gc.server_channels).bind (dfind channel_type))
      <;> rcases h2 : truthyNat ((dfind "default" gc.server_channels).bind (dfind channel_type))
      <;> rcases h3 : truthyNat ((dfind server_id gc.server_channels).bind (dfind "killfeed"))
      <;> rcases h4 : truthyNat ((dfind "default" gc.server_channels).bind (dfind "killfeed"))
      <;> rcases h5 : truthyNat (dfind "killfeed" gc.channels)
      <;> rcases h6 : truthyNat (dfind channel_type gc.channels)
      <;> simp [h1, h2, h3, h4, h5, h6]
  · decide

/-- Witness for C7's amended chain theorem at the legacy-only config. -/
theorem channel_fallback_chain_spec_witness :
    get_server_channel legacyOnlyConfig "srv1" "connections" =
      firstTruthy (fallback_chain legacyOnlyConfig "srv1" "connections") ∧
    get_server_channel ⟨[], [("connections", 100)]⟩ "srv1" "connections" = some 100 :=
  channel_fallback_chain_spec legacyOnlyConfig "srv1" "connections" (by decide)

/-! ## Parser state (`__init__` dictionaries), `cleanup_guild_state`,
`get_guild_server_state` -/

/-- A `file_states` record.  `parse_log_content` writes it without the
`cold_start_complete` key; since the only read is
`.get('cold_start_complete', False)`, an absent key is modelled as the
value `false`. -/
structure FileState where
  line_count : Nat
  last_updated : Nat
  cold_start_complete : Bool
  deriving DecidableEq, Repr

/-- A `player_sessions` record (an absent `left_at` key is `none`). -/
structure PlayerSession where
  player_id : String
  player_name : String
  guild_id : String
  joined_at : Nat
  status : String
  left_at : Option Nat
  deriving DecidableEq, Repr

/-- A `player_lifecycle` record. -/
structure LifecycleEntry where
  name : String
  queue_joined : Nat
  deriving DecidableEq, Repr

/-- The mutable dictionaries of `UnifiedLogParser.__init__` that the
verified operations touch (the `server_status` payload is never
inspected, so it is opaque). -/
structure ParserState where
  last_log_position : List (String × Nat)
  log_file_hashes : List (String × String)
  player_sessions : List (String × PlayerSession)
  server_status : List (String × Unit)
  sftp_connections : List (String × Conn)
  file_states : List (String × FileState)
  player_lifecycle : List (String × LifecycleEntry)
  deriving DecidableEq

/-- `cleanup_guild_state`: removes every key starting with
`f"{guild_id}_"` from each state dictionary, closing and deleting the
matching SFTP connections. -/
def cleanup_guild_state (st : ParserState) (guild_id : Nat) : ParserState :=
  let gp := natStr guild_id ++ "_"
  { last_log_position := st.last_log_position.filter (fun kv => !pyStartsWith kv.1 gp),
    log_file_hashes := st.log_file_hashes.filter (fun kv => !pyStartsWith kv.1 gp),
    player_sessions := st.player_sessions.filter (fun kv => !pyStartsWith kv.1 gp),
    server_status := st.server_status.filter (fun kv => !pyStartsWith kv.1 gp),
    sftp_connections := st.sftp_connections.filter (fun kv => !pyStartsWith kv.1 gp),
    file_states := st.file_states.filter (fun kv => !pyStartsWith kv.1 gp),
    player_lifecycle := st.player_lifecycle.filter (fun kv => !pyStartsWith kv.1 gp) }

/-- The dictionary `get_guild_server_state` returns. -/
structure GuildServerState where
  file_state : Option FileState
  server_status : Option Unit
  active_players : List PlayerSession
  sftp_connected : Bool
  deriving DecidableEq

/-- `get_guild_server_state`: isolated view of one guild-server pair. -/
def get_guild_server_state (st : ParserState) (guild_id : Nat) (server_id : String) :
    GuildServerState :=
  let key := server_key guild_id server_id
  { file_state := dfind key st.file_states,
    server_status := dfind key st.server_status,
    active_players := (st.player_sessions.filter
      (fun kv => pyStartsWith kv.1 (natStr guild_id ++ "_") && kv.2.status == "online")).map
        Prod.snd,
    sftp_connected := st.sftp_connections.any
      (fun kv => pyStartsWith kv.1 (key ++ "_")) }

/-- A pool holding one connection whose host itself begins with `"1_"`:
the key is built by the `host:port:username` format of
`get_sftp_connection`. -/
def underscoreHostState : ParserState :=
  { last_log_position := [], log_file_hashes := [], player_sessions := [],
    server_status := [], sftp_connections := [(pool_key "1_x_h" 22 "u", ⟨0, false⟩)],
    file_states := [], player_lifecycle := [] }

/-- C10 counterexample: for guild id 1 and the pooled key
`pool_key "1_x_h" 22 "u" = "1_x_h:22:u"` (host `"1_x_h"` contains
underscores), `cleanup_guild_state` *does* remove the pooled connection,
and `get_guild_server_state` for (guild 1, server "x") reports
`sftp_connected = true` — both parts of the claim fail on a pool key of
the `host:port:username` format. -/
theorem cleanup_pool_counterexample :
    (cleanup_guild_state underscoreHostState 1).sftp_connections = [] ∧
    underscoreHostState.sftp_connections ≠ [] ∧
    (get_guild_server_state underscoreHostState 1 "x").sftp_connected = true := by
  refine ⟨by decide, by decide, by decide⟩

theorem isPrefixB_digits_underscore_colon :
    ∀ (d : List Char), (∀ c ∈ d, c.isDigit = true) →
      ∀ (hh : List Char), '_' ∉ hh → ∀ (rest tail : List Char),
        isPrefixB (d ++ '_' :: rest) (hh ++ ':' :: tail) = false := by
  intro d
  induction d with
  | nil =>
    intro _ hh hnu rest tail
    cases hh with
    | nil => simp [isPrefixB]
    | cons c h' =>
      have : '_' ≠ c := fun h => hnu (h ▸ List.mem_cons_self c h')
      simp [isPrefixB, this]
  | cons a d' ih =>
    intro hd hh hnu rest tail
    have ha : a.isDigit = true := hd a (List.mem_cons_self a d')
    cases hh with
    | nil =>
      have : a ≠ ':' := fun h => by rw [h] at ha; simp [Char.isDigit] at ha
      simp [isPrefixB, this]
    | cons c h' =>
      by_cases hac : a = c
      · subst hac
        simpa [isPrefixB] using ih (fun x hx => hd x (List.mem_cons_of_mem a hx)) h'
          (fun hm => hnu (List.mem_cons_of_mem a hm)) rest tail
      · simp [isPrefixB, hac]

theorem pool_key_data (h u : String) (p : Nat) :
    (pool_key h p u).data = h.data ++ ':' :: (natToChars p ++ ':' :: u.data) := by
  have hc : (":" : String).data = [':'] := by decide
  simp [pool_key, string_data_append, natStr, hc]

/-- No `host:port:username` key whose host is underscore-free can start
with a decimal-digit run followed by an underscore. -/
theorem pool_key_no_guild_start (h u : String) (p : Nat) (g : Nat) (rest : List Char)
    (hh : '_' ∉ h.data) :
    isPrefixB (natToChars g ++ '_' :: rest) (pool_key h p u).data = false := by
  rw [pool_key_data]
  exact isPrefixB_digits_underscore_colon (natToChars g) (natToChars_digits g)
    h.data hh rest (natToChars p ++ ':' :: u.data)

/-- C10 amended: for every guild id `g`, `cleanup_guild_state g` leaves
the SFTP connection pool unchanged, and `get_guild_server_state`'s
`sftp_connected` field is false for every server id, *provided* every
pool key has the `host:port:username` format with an underscore-free
host; a host that itself begins with `str(g) + '_'` defeats both (see
the counterexample). -/
theorem cleanup_pool_frame (st : ParserState) (g : Nat)
    (hpool : ∀ kv ∈ st.sftp_connections,
      ∃ h p u, kv.1 = pool_key h p u ∧ '_' ∉ (h : String).data) :
    (cleanup_guild_state st g).sftp_connections = st.sftp_connections ∧
    ∀ s : String, (get_guild_server_state st g s).sftp_connected = false := by
  have hund : ("_" : String).data = ['_'] := by decide
  have hmain : ∀ kv ∈ st.sftp_connections, ∀ rest : List Char,
      isPrefixB (natToChars g ++ '_' :: rest) kv.1.data = false := by
    intro kv hkv rest
    obtain ⟨h, p, u, hkey, hh⟩ := hpool kv hkv
    rw [hkey]
    exact pool_key_no_guild_start h u p g rest hh
  constructor
  · show List.filter _ st.sftp_connections = st.sftp_connections
    rw [List.filter_eq_self]
    intro kv hkv
    have : pyStartsWith kv.1 (natStr g ++ "_") = false := by
      have hdata : (natStr g ++ "_").data = natToChars g ++ '_' :: [] := by
        simp [string_data_append, natStr, hund]
      simp [pyStartsWith, hdata, hmain kv hkv []]
    simp [this]
  · intro s
    show List.any _ _ = false
    rw [List.any_eq_false]
    intro kv hkv
    have hdata : (server_key g s ++ "_").data =
        natToChars g ++ '_' :: (s.data ++ ['_']) := by
      simp [server_key, string_data_append, natStr, hund]
    simp [pyStartsWith, hdata, hmain kv hkv (s.data ++ ['_'])]

/-- Witness for C10's amended theorem: a pool with an underscore-free
host survives `cleanup_guild_state` untouched. -/
theorem cleanup_pool_frame_witness :
    let st : ParserState :=
      { last_log_position := [], log_file_hashes := [], player_sessions := [],
        server_status := [], sftp_connections := [(pool_key "hostA" 22 "u", ⟨0, false⟩)],
        file_states := [], player_lifecycle := [] }
    (cleanup_guild_state st 1).sftp_connections = st.sftp_connections ∧
    ∀ s : String, (get_guild_server_state st 1 s).sftp_connected = false :=
  cleanup_pool_frame _ 1
    (fun kv hkv => ⟨"hostA", 22, "u", by simp at hkv; simp [hkv], by decide⟩)

/-! ## Log lines, events and the processing loop (`parse_log_content`,
`parse_server_logs`) -/

/-- One log line, abstracted to the capture groups of the compiled
patterns `parse_log_content` consults.  A field is `none` when its
pattern does not match the line.  The remaining `mission_*` patterns
(`mission_ready`/`initial`/`in_progress`/`completed`) hit the
`else: continue` branch of the mission loop and never produce an event,
and the vehicle/lifecycle patterns are not consulted by
`parse_log_content` at all, so they are not modelled. -/
structure LogLine where
  mission_respawn : Option (String × Nat)
  mission_state_change : Option (String × String)
  player_queue_join : Option (String × String)
  player_registered : Option String
  player_disconnect : Option String
  deriving DecidableEq, Repr

/-- A built notification embed (`EmbedFactory` output, abstracted to the
fields the parser computes for it). -/
inductive Embed where
  | mission (mission_id normalized_name : String) (level : Nat) (state : String)
      (respawn_time : Option Nat)
  | connection (player_id player_name : String) (joined : Bool)
  deriving DecidableEq, Repr

/-- Observable external effects of a pass: a checkpoint write
(`_save_persistent_state`, carrying the `file_states` dictionary it
persists) or one embed handed to the delivery layer
(`send_log_embeds`). -/
inductive Action where
  | persist (file_states : List (String × FileState))
  | emit (e : Embed)
  deriving DecidableEq, Repr

/-- Whether an action is a delivery. -/
def Action.isEmit : Action → Bool
  | Action.emit _ => true
  | _ => false

/-- `process_mission_event`: builds the mission embed (the `EmbedFactory`
call is external and always yields an embed; every branch of the
`if/elif` chain returns one). -/
def process_mission_event (mission_id state : String) (respawn_time : Option Nat) :
    Option Embed :=
  some (Embed.mission mission_id (normalize_mission_name mission_id)
    (get_mission_level mission_id) state respawn_time)

/-- `process_player_connection`: session-tracker transition plus the
connection embed.  `'joined'` overwrites the whole session record with
status `'online'`; `'disconnected'` mutates an existing record to status
`'offline'` (and does nothing to the tracker when no record exists);
any other event type returns no embed. -/
def process_player_connection (st : ParserState) (now : Nat)
    (guild_id player_id player_name event_type : String) :
    ParserState × Option Embed :=
  let session_key := guild_id ++ "_" ++ player_id
  if event_type = "joined" then
    let sess : PlayerSession := ⟨player_id, player_name, guild_id, now, "online", none⟩
    ({ st with player_sessions := dinsert session_key sess st.player_sessions },
     some (Embed.connection player_id player_name true))
  else if event_type = "disconnected" then
    let st' :=
      match dfind session_key st.player_sessions with
      | some sess =>
          let sess' := { sess with status := "offline", left_at := some now }
          { st with player_sessions := dinsert session_key sess' st.player_sessions }
      | none => st
    (st', some (Embed.connection player_id player_name false))
  else (st, none)

/-- The mission-pattern block of one line of `parse_log_content`: the
patterns are consulted in dictionary insertion order (`mission_respawn`
first, then `mission_state_change`); after each produced event, the
inner safety check `processed_events > len(lines) * 2` (hot mode only)
breaks out of the pattern loop.  The block never touches the parser
state, so it returns only the embed list and the event counter. -/
def mission_block (numLines : Nat) (cold : Bool) (line : LogLine)
    (embeds : List Embed) (processed : Nat) : List Embed × Nat :=
  let step1 :=
    match line.mission_respawn with
    | some (mid, t) =>
        match process_mission_event mid "RESPAWN" (some t) with
        | some e =>
            let processed := processed + 1
            let embeds := if cold then embeds else embeds ++ [e]
            (embeds, processed, !cold && decide (processed > numLines * 2))
        | none => (embeds, processed, false)
    | none => (embeds, processed, false)
  if step1.2.2 then (step1.1, step1.2.1)
  else
    match line.mission_state_change with
    | some (mid, stt) =>
        match process_mission_event mid stt none with
        | some e =>
            let processed := step1.2.1 + 1
            let embeds := if cold then step1.1 else step1.1 ++ [e]
            (embeds, processed)
        | none => (step1.1, step1.2.1)
    | none => (step1.1, step1.2.1)

/-- The `player_registered` block of one line: the display name comes
from the lifecycle record (default `"Unknown Player"`), then the
`'joined'` transition runs and the embed is counted (and collected
unless in cold-start mode). -/
def registered_step (guild_id : String) (now : Nat) (cold : Bool)
    (reg : Option String) (st : ParserState) (embeds : List Embed) (processed : Nat) :
    ParserState × List Embed × Nat :=
  match reg with
  | some pid =>
      let player_key := guild_id ++ "_" ++ pid
      let player_name :=
        match dfind player_key st.player_lifecycle with
        | some le => le.name
        | none => "Unknown Player"
      match process_player_connection st now guild_id pid player_name "joined" with
      | (st', some e) =>
          (st', (if cold then embeds else embeds ++ [e]), processed + 1)
      | (st', none) => (st', embeds, processed)
  | none => (st, embeds, processed)

/-- The `player_disconnect` block of one line: the display name comes
from the session record, then the lifecycle record, then the default;
the `'disconnected'` transition runs and the embed is counted (and
collected unless in cold-start mode). -/
def disconnect_step (guild_id : String) (now : Nat) (cold : Bool)
    (disc : Option String) (st : ParserState) (embeds : List Embed) (processed : Nat) :
    ParserState × List Embed × Nat :=
  match disc with
  | some pid =>
      let player_key := guild_id ++ "_" ++ pid
      let player_name :=
        match dfind player_key st.player_sessions with
        | some sess => sess.player_name
        | none =>
            match dfind player_key st.player_lifecycle with
            | some le => le.name
            | none => "Unknown Player"
      match process_player_connection st now guild_id pid player_name "disconnected" with
      | (st', some e) =>
          (st', (if cold then embeds else embeds ++ [e]), processed + 1)
      | (st', none) => (st', embeds, processed)
  | none => (st, embeds, processed)

/-- One iteration of the line loop of `parse_log_content`: mission block,
`player_queue_join` lifecycle recording, registration block, disconnect
block (the per-line safety check lives in `parse_lines`). -/
def process_line (guild_id : String) (numLines : Nat) (cold : Bool) (now : Nat)
    (line : LogLine) (st : ParserState) (embeds : List Embed) (processed : Nat) :
    ParserState × List Embed × Nat :=
  let mb := mission_block numLines cold line embeds processed
  let st1 :=
    match line.player_queue_join with
    | some (pid, pname) =>
        let entry : LifecycleEntry := ⟨pname, now⟩
        { st with player_lifecycle :=
            dinsert (guild_id ++ "_" ++ pid) entry st.player_lifecycle }
    | none => st
  let r2 := registered_step guild_id now cold line.player_registered st1 mb.1 mb.2
  disconnect_step guild_id now cold line.player_disconnect r2.1 r2.2.1 r2.2.2

/-- The line loop of `parse_log_content` with the per-line safety check:
once `processed_events > max_events` (`len(lines) * 5` cold,
`len(lines) * 2` hot) after a line, no further line is processed. -/
def parse_lines (guild_id : String) (numLines : Nat) (cold : Bool) (now : Nat) :
    List LogLine → ParserState → List Embed → Nat → ParserState × List Embed × Nat
  | [], st, embeds, processed => (st, embeds, processed)
  | line :: rest, st, embeds, processed =>
      let r := process_line guild_id numLines cold now line st embeds processed
      let max_events := numLines * (if cold then 5 else 2)
      if r.2.2 > max_events then r
      else parse_lines guild_id numLines cold now rest r.1 r.2.1 r.2.2

/-- The processing tail of `parse_log_content`: write the tenant's
`file_states` record *before* processing (without a
`cold_start_complete` key, i.e. `false`), persist immediately, then run
the line loop. -/
def parse_log_content_go (st : ParserState) (now : Nat) (lines : List LogLine)
    (total_lines : Nat) (skey guild_id : String) (cold : Bool) :
    ParserState × List Embed × List Action :=
  let st1 := { st with
    file_states := dinsert skey ⟨total_lines, now, false⟩ st.file_states }
  let r := parse_lines guild_id lines.length cold now lines st1 [] 0
  (r.1, r.2.1, [Action.persist st1.file_states])

/-- `parse_log_content`.  `content` is the line list of the string
argument (joining lines with `'\n'` and re-splitting is the identity on
lines produced by `splitlines`).  The stored `line_count` re-slices the
input: strictly between 0 and the input length → drop that many lines;
at least the input length → return immediately with no embeds and no
state change; otherwise process everything. -/
def parse_log_content (st : ParserState) (now : Nat) (content : List LogLine)
    (guild_id server_id : String) (cold_start_mode : Bool) :
    ParserState × List Embed × List Action :=
  let total_lines := content.length
  let skey := guild_id ++ "_" ++ server_id
  let last_processed := ((dfind skey st.file_states).map FileState.line_count).getD 0
  if last_processed > 0 ∧ last_processed < total_lines then
    parse_log_content_go st now (content.drop last_processed) total_lines skey
      guild_id cold_start_mode
  else if last_processed ≥ total_lines then
    (st, [], [])
  else
    parse_log_content_go st now content total_lines skey guild_id cold_start_mode

/-- The tail of `parse_server_logs` shared by the cold and hot branches:
deliver the embeds (hot mode only — cold start suppresses them), then
overwrite `last_log_position` and the tenant's `file_states` record with
the total line count and `cold_start_complete = True`, and persist. -/
def finish_pass (st : ParserState) (embeds : List Embed) (acts1 : List Action)
    (skey : String) (total_lines now : Nat) (cold : Bool) : ParserState × List Action :=
  let emits := if cold then [] else embeds.map Action.emit
  let st2 := { st with
    last_log_position := dinsert skey total_lines st.last_log_position,
    file_states := dinsert skey ⟨total_lines, now, true⟩ st.file_states }
  (st2, acts1 ++ emits ++ [Action.persist st2.file_states])

/-- `parse_server_logs` after content acquisition (`content` is the
`splitlines()` of the fetched log; connection pooling, the local-file
fallback and fixture synthesis are external I/O).  Empty content returns
immediately; otherwise the mode is chosen from `last_log_position`, the
stored `line_count` and the `cold_start_complete` flag; a hot start with
no new lines returns immediately with no state change; otherwise the
selected range goes through `parse_log_content` and the pass is
finished by `finish_pass`. -/
def parse_server_logs (st : ParserState) (now : Nat) (guild_id : Nat) (server_id : String)
    (content : List LogLine) : ParserState × List Action :=
  let skey := server_key guild_id server_id
  if content.isEmpty then (st, [])
  else
    let total_lines := content.length
    let last_position := (dfind skey st.last_log_position).getD 0
    let file_state := dfind skey st.file_states
    let last_known_lines := (file_state.map FileState.line_count).getD 0
    let cold_complete := ((file_state.map FileState.cold_start_complete).getD false)
    let is_cold_start := (last_position == 0) || (last_known_lines == 0) || !cold_complete
    if is_cold_start then
      let r := parse_log_content st now content (natStr guild_id) server_id true
      finish_pass r.1 r.2.1 r.2.2 skey total_lines now true
    else
      let new_lines := if last_position < total_lines then content.drop last_position else []
      if new_lines.isEmpty then (st, [])
      else
        let r := parse_log_content st now new_lines (natStr guild_id) server_id false
        finish_pass r.1 r.2.1 r.2.2 skey total_lines now false

/-! ## C4: idempotence of a no-change pass -/

/-- C4: when the tenant's in-memory position and persisted checkpoint
both already record the log's current total line count and cold start is
complete, another pass returns before touching any state: the checkpoint
record is not rewritten (no new timestamp) and no action — neither a
persist nor a delivery — is produced. -/
theorem hot_noop_pass (st : ParserState) (now : Nat) (g : Nat) (sid : String)
    (content : List LogLine) (fs : FileState)
    (hlp : dfind (server_key g sid) st.last_log_position = some content.length)
    (hfs : dfind (server_key g sid) st.file_states = some fs)
    (hlc : fs.line_count = content.length)
    (hcc : fs.cold_start_complete = true) :
    parse_server_logs st now g sid content = (st, []) := by
  cases content with
  | nil => simp [parse_server_logs]
  | cons c cs =>
    have hne : (cs.length + 1 == 0) = false := by simp
    simp only [parse_server_logs, List.isEmpty_cons, if_false, List.length_cons,
      hlp, hfs, Option.getD_some, Option.map_some', hlc, hcc, hne,
      Bool.not_true, Bool.or_false, Bool.false_or, Bool.or_self]
    simp [List.isEmpty_nil]

/-- Witness for C4: a two-line log whose checkpoint already records two
lines. -/
theorem hot_noop_pass_witness :
    let st : ParserState :=
      { last_log_position := [(server_key 7 "s1", 2)], log_file_hashes := [],
        player_sessions := [], server_status := [], sftp_connections := [],
        file_states := [(server_key 7 "s1", ⟨2, 0, true⟩)], player_lifecycle := [] }
    parse_server_logs st 1 7 "s1"
      [⟨none, none, none, none, none⟩, ⟨none, none, none, none, none⟩] = (st, []) :=
  hot_noop_pass _ 1 7 "s1" _ ⟨2, 0, true⟩ (by decide) (by decide) rfl rfl

/-! ## C1: incrementality of a hot pass -/

/-- A line matching no pattern. -/
def lineNone : LogLine := ⟨none, none, none, none, none⟩

/-- A line matching `mission_state_change` with state `READY`. -/
def lineReady : LogLine := ⟨none, some ("GA_X", "READY"), none, none, none⟩

/-- The parser state with no tenant data at all. -/
def emptyState : ParserState := ⟨[], [], [], [], [], [], []⟩

/-- A tenant whose checkpoint records 2 fully processed lines. -/
def c1State : ParserState :=
  { emptyState with
    last_log_position := [(server_key 7 "s1", 2)],
    file_states := [(server_key 7 "s1", ⟨2, 0, true⟩)] }

/-- The same log grown to 3 lines; the appended third line carries a
`mission_state_change` match. -/
def c1Log : List LogLine := [lineNone, lineNone, lineReady]

/-- C1 fails on the code: with a checkpoint of N = 2 processed lines and
M = 1 appended line carrying an event-producing `mission_state_change`
match, the pass emits zero events.  `parse_server_logs` slices off the
new line and hands only it to `parse_log_content`, which re-slices by
the stored `line_count` (2) over that 1-line input and returns
immediately — the appended match never yields an event, contradicting
the incrementality property. -/
theorem incrementality_failure :
    (∃ l ∈ c1Log.drop 2, l.mission_state_change.isSome = true) ∧
    (parse_server_logs c1State 1 7 "s1" c1Log).2.countP Action.isEmit = 0 := by
  constructor
  · exact ⟨lineReady, by decide, by decide⟩
  · decide

/-! ## C2: checkpoint/emit ordering -/

theorem parse_log_content_shape (st : ParserState) (now : Nat) (content : List LogLine)
    (gid sid : String) (cold : Bool) :
    parse_log_content st now content gid sid cold = (st, [], []) ∨
    ∃ st' embeds, parse_log_content st now content gid sid cold =
      (st', embeds,
        [Action.persist (dinsert (gid ++ "_" ++ sid) ⟨content.length, now, false⟩
          st.file_states)]) := by
  by_cases h1 : ((dfind (gid ++ "_" ++ sid) st.file_states).map FileState.line_count).getD 0 > 0
      ∧ ((dfind (gid ++ "_" ++ sid) st.file_states).map FileState.line_count).getD 0
        < content.length
  · simp only [parse_log_content, parse_log_content_go, if_pos h1]
    right
    exact ⟨_, _, rfl⟩
  · by_cases h2 : ((dfind (gid ++ "_" ++ sid) st.file_states).map FileState.line_count).getD 0
        ≥ content.length
    · simp only [parse_log_content, parse_log_content_go, if_neg h1, if_pos h2]
      left
      trivial
    · simp only [parse_log_content, parse_log_content_go, if_neg h1, if_neg h2]
      right
      exact ⟨_, _, rfl⟩

/-- Scan of a trace: `true` while every delivery so far was preceded by
some persisted checkpoint write. -/
def persistSeenAux : Bool → List Action → Bool
  | _, [] => true
  | _, Action.persist _ :: r => persistSeenAux true r
  | seen, Action.emit _ :: r => seen && persistSeenAux seen r

/-- Every delivery in the trace is preceded by some persisted checkpoint
write. -/
def persist_before_emit (tr : List Action) : Bool := persistSeenAux false tr

theorem persistSeenAux_true (l : List Action) : persistSeenAux true l = true := by
  induction l with
  | nil => rfl
  | cons a r ih => cases a <;> simp [persistSeenAux, ih]

/-- Scan of a trace for the C2 claim: `true` while every delivery so far
was preceded by a persisted `file_states` whose record for `key` already
carries `line_count = total` and `cold_start_complete = true`. -/
def ncbeAux (key : String) (total : Nat) : Bool → List Action → Bool
  | seen, [] => seen || true
  | seen, Action.persist fs :: r =>
      ncbeAux key total
        (seen || (match dfind key fs with
          | some rec0 => (rec0.line_count == total) && rec0.cold_start_complete
          | none => false)) r
  | seen, Action.emit _ :: r => seen && ncbeAux key total seen r

/-- The C2 claim as a trace predicate: no embed is handed to delivery
while the persisted checkpoint still lacks the new `lineCount` or the
`coldStartComplete` flag. -/
def new_checkpoint_before_emit (key : String) (total : Nat) (tr : List Action) : Bool :=
  ncbeAux key total false tr

/-- A tenant whose checkpoint records 1 processed line. -/
def c2State : ParserState :=
  { emptyState with
    last_log_position := [(server_key 7 "s1", 1)],
    file_states := [(server_key 7 "s1", ⟨1, 0, true⟩)] }

/-- A 5-line log whose fourth line carries a mission match. -/
def c2Log : List LogLine := [lineNone, lineNone, lineNone, lineReady, lineNone]

/-- C2 counterexample: a hot pass that delivers one embed does so
*before* the checkpoint carrying `lineCount = 5` (the fetched log's
total) and `coldStartComplete = true` is persisted: the only persist
preceding the delivery carries `line_count = 4` (the sliced input's
length) and no `cold_start_complete` flag, so the claimed ordering is
false on this input. -/
theorem checkpoint_order_counterexample :
    (parse_server_logs c2State 1 7 "s1" c2Log).2.countP Action.isEmit = 1 ∧
    new_checkpoint_before_emit (server_key 7 "s1") c2Log.length
      (parse_server_logs c2State 1 7 "s1" c2Log).2 = false := by
  constructor <;> decide

theorem finish_pass_order (st' : ParserState) (embeds : List Embed) (acts1 : List Action)
    (skey : String) (total now : Nat) (cold : Bool)
    (hacts : (acts1 = [] ∧ embeds = []) ∨
      ∃ fs1, acts1 = [Action.persist fs1] ∧ ∃ r1, dfind skey fs1 = some r1 ∧
        r1.cold_start_complete = false) :
    persist_before_emit (finish_pass st' embeds acts1 skey total now cold).2 = true ∧
    (∀ a ∈ (finish_pass st' embeds acts1 skey total now cold).2.dropLast, ∀ fs,
      a = Action.persist fs → ∃ r, dfind skey fs = some r ∧
        r.cold_start_complete = false) ∧
    ((finish_pass st' embeds acts1 skey total now cold).2.getLast? =
      some (Action.persist (finish_pass st' embeds acts1 skey total now cold).1.file_states) ∧
      ∃ r, dfind skey
        (finish_pass st' embeds acts1 skey total now cold).1.file_states = some r ∧
        r.line_count = total ∧ r.cold_start_complete = true) := by
  have htr : (finish_pass st' embeds acts1 skey total now cold).2 =
      (acts1 ++ (if cold then [] else embeds.map Action.emit)) ++
        [Action.persist (dinsert skey ⟨total, now, true⟩ st'.file_states)] := by
    show acts1 ++ _ ++ [_] = _
    simp
  have hst : (finish_pass st' embeds acts1 skey total now cold).1.file_states =
      dinsert skey ⟨total, now, true⟩ st'.file_states := rfl
  rw [htr, hst]
  refine ⟨?_, ?_, ?_, ?_⟩
  · -- persist_before_emit
    rcases hacts with ⟨h1, h2⟩ | ⟨fs1, h1, r1, hr1, hc1⟩
    · subst h1; subst h2
      cases cold <;> simp [persist_before_emit, persistSeenAux, persistSeenAux_true]
    · subst h1
      simp [persist_before_emit, persistSeenAux, persistSeenAux_true]
  · -- persists before the last action lack the flag
    intro a ha fs hafs
    rw [List.dropLast_concat] at ha
    rcases List.mem_append.mp ha with ha | ha
    · rcases hacts with ⟨h1, _⟩ | ⟨fs1, h1, r1, hr1, hc1⟩
      · subst h1; simp at ha
      · subst h1
        simp only [List.mem_singleton] at ha
        subst ha
        obtain rfl : fs1 = fs := by simpa using hafs
        exact ⟨r1, hr1, hc1⟩
    · exfalso
      cases cold with
      | true => simp at ha
      | false =>
        simp only [if_neg, Bool.false_eq_true, ite_false, List.mem_map] at ha
        rcases ha with ⟨e, _, he⟩
        rw [hafs] at he
        exact Action.noConfusion he
  · -- last action is the persist of the final file_states
    rw [List.getLast?_concat]
  · exact ⟨⟨total, now, true⟩, dfind_dinsert_self _ _ _, rfl, rfl⟩

theorem pass_tail_order (st0 : ParserState) (now : Nat) (g : Nat) (sid : String)
    (lines : List LogLine) (b : Bool) (total : Nat) :
    persist_before_emit (finish_pass (parse_log_content st0 now lines (natStr g) sid b).1
      (parse_log_content st0 now lines (natStr g) sid b).2.1
      (parse_log_content st0 now lines (natStr g) sid b).2.2
      (server_key g sid) total now b).2 = true ∧
    (∀ a ∈ (finish_pass (parse_log_content st0 now lines (natStr g) sid b).1
      (parse_log_content st0 now lines (natStr g) sid b).2.1
      (parse_log_content st0 now lines (natStr g) sid b).2.2
      (server_key g sid) total now b).2.dropLast, ∀ fs,
      a = Action.persist fs → ∃ r, dfind (server_key g sid) fs = some r ∧
        r.cold_start_complete = false) ∧
    ((finish_pass (parse_log_content st0 now lines (natStr g) sid b).1
      (parse_log_content st0 now lines (natStr g) sid b).2.1
      (parse_log_content st0 now lines (natStr g) sid b).2.2
      (server_key g sid) total now b).2.getLast? =
        some (Action.persist (finish_pass (parse_log_content st0 now lines (natStr g) sid b).1
          (parse_log_content st0 now lines (natStr g) sid b).2.1
          (parse_log_content st0 now lines (natStr g) sid b).2.2
          (server_key g sid) total now b).1.file_states) ∧
      ∃ r, dfind (server_key g sid)
        (finish_pass (parse_log_content st0 now lines (natStr g) sid b).1
          (parse_log_content st0 now lines (natStr g) sid b).2.1
          (parse_log_content st0 now lines (natStr g) sid b).2.2
          (server_key g sid) total now b).1.file_states = some r ∧
        r.line_count = total ∧ r.cold_start_complete = true) := by
  rcases parse_log_content_shape st0 now lines (natStr g) sid b with h | ⟨st', embeds, h⟩
  · rw [h]
    exact finish_pass_order st0 [] [] (server_key g sid) total now b (Or.inl ⟨rfl, rfl⟩)
  · rw [h]
    exact finish_pass_order st' embeds _ (server_key g sid) total now b
      (Or.inr ⟨_, rfl, ⟨lines.length, now, false⟩, dfind_dinsert_self _ _ _, rfl⟩)

/-- C2 amended: in every pass, a checkpoint write is persisted before
any embed is handed to delivery, but that early write records only the
sliced input's line count and *lacks* `coldStartComplete`; the new
checkpoint (`lineCount` = total of the fetched log,
`coldStartComplete = true`, updated timestamp) is persisted only as the
final action of the pass, after every delivery. -/
theorem checkpoint_persist_order (st : ParserState) (now : Nat) (g : Nat) (sid : String)
    (content : List LogLine) :
    persist_before_emit (parse_server_logs st now g sid content).2 = true ∧
    (∀ a ∈ (parse_server_logs st now g sid content).2.dropLast, ∀ fs,
      a = Action.persist fs → ∃ r, dfind (server_key g sid) fs = some r ∧
        r.cold_start_complete = false) ∧
    ((parse_server_logs st now g sid content).2 ≠ [] →
      (parse_server_logs st now g sid content).2.getLast? =
        some (Action.persist (parse_server_logs st now g sid content).1.file_states) ∧
      ∃ r, dfind (server_key g sid)
        (parse_server_logs st now g sid content).1.file_states = some r ∧
        r.line_count = content.length ∧ r.cold_start_complete = true) := by
  simp only [parse_server_logs]
  split
  · exact ⟨rfl, by simp, fun h => absurd rfl h⟩
  · split
    · have := pass_tail_order st now g sid content true content.length
      exact ⟨this.1, this.2.1, fun _ => this.2.2⟩
    · repeat' split
      all_goals
        first
          | exact ⟨rfl, by simp, fun h => absurd rfl h⟩
          | (have h := pass_tail_order st now g sid
               (List.drop ((dfind (server_key g sid) st.last_log_position).getD 0) content)
               false content.length
             exact ⟨h.1, h.2.1, fun _ => h.2.2⟩)
          | (have h := pass_tail_order st now g sid ([] : List LogLine) false content.length
             exact ⟨h.1, h.2.1, fun _ => h.2.2⟩)

/-- Witness for C2's amended theorem at the emitting hot pass of the
counterexample input. -/
theorem checkpoint_persist_order_witness :
    persist_before_emit (parse_server_logs c2State 1 7 "s1" c2Log).2 = true ∧
    (∀ a ∈ (parse_server_logs c2State 1 7 "s1" c2Log).2.dropLast, ∀ fs,
      a = Action.persist fs → ∃ r, dfind (server_key 7 "s1") fs = some r ∧
        r.cold_start_complete = false) ∧
    ((parse_server_logs c2State 1 7 "s1" c2Log).2 ≠ [] →
      (parse_server_logs c2State 1 7 "s1" c2Log).2.getLast? =
        some (Action.persist (parse_server_logs c2State 1 7 "s1" c2Log).1.file_states) ∧
      ∃ r, dfind (server_key 7 "s1")
        (parse_server_logs c2State 1 7 "s1" c2Log).1.file_states = some r ∧
        r.line_count = c2Log.length ∧ r.cold_start_complete = true) :=
  checkpoint_persist_order c2State 1 7 "s1" c2Log

/-! ## C5: safety breaker -/

theorem mission_block_le (L : Nat) (cold : Bool) (line : LogLine) (e : List Embed) (p : Nat) :
    p ≤ (mission_block L cold line e p).2 ∧ (mission_block L cold line e p).2 ≤ p + 2 := by
  unfold mission_block process_mission_event
  rcases line.mission_respawn with _ | ⟨mid, t⟩ <;>
    rcases line.mission_state_change with _ | ⟨mid2, s2⟩ <;>
    repeat' split
  all_goals try simp_arith
  all_goals repeat' split
  all_goals first | rfl | omega | contradiction | simp_arith | simp_all

theorem mission_block_lockstep (L : Nat) (line : LogLine) (e : List Embed) (p : Nat) :
    (mission_block L false line e p).1.length + p =
      e.length + (mission_block L false line e p).2 := by
  unfold mission_block process_mission_event
  rcases line.mission_respawn with _ | ⟨mid, t⟩ <;>
    rcases line.mission_state_change with _ | ⟨mid2, s2⟩ <;>
    repeat' split
  all_goals try simp_arith
  all_goals repeat' split
  all_goals first | rfl | omega | contradiction | simp_arith | simp_all

theorem registered_step_le (gid : String) (now : Nat) (cold : Bool) (reg : Option String)
    (st : ParserState) (e : List Embed) (p : Nat) :
    p ≤ (registered_step gid now cold reg st e p).2.2 ∧
      (registered_step gid now cold reg st e p).2.2 ≤ p + 1 := by
  unfold registered_step process_player_connection
  rcases reg with _ | pid <;> repeat' split
  all_goals try simp_arith
  all_goals repeat' split
  all_goals first | rfl | omega | contradiction | simp_arith | simp_all

theorem registered_step_lockstep (gid : String) (now : Nat) (reg : Option String)
    (st : ParserState) (e : List Embed) (p : Nat) :
    (registered_step gid now false reg st e p).2.1.length + p =
      e.length + (registered_step gid now false reg st e p).2.2 := by
  unfold registered_step process_player_connection
  rcases reg with _ | pid <;> repeat' split
  all_goals try simp_arith
  all_goals repeat' split
  all_goals first | rfl | omega | contradiction | simp_arith | simp_all

theorem disconnect_step_le (gid : String) (now : Nat) (cold : Bool) (disc : Option String)
    (st : ParserState) (e : List Embed) (p : Nat) :
    p ≤ (disconnect_step gid now cold disc st e p).2.2 ∧
      (disconnect_step gid now cold disc st e p).2.2 ≤ p + 1 := by
  unfold disconnect_step process_player_connection
  rcases disc with _ | pid <;> repeat' split
  all_goals try simp_arith
  all_goals repeat' split
  all_goals first | rfl | omega | contradiction | simp_arith | simp_all

theorem disconnect_step_lockstep (gid : String) (now : Nat) (disc : Option String)
    (st : ParserState) (e : List Embed) (p : Nat) :
    (disconnect_step gid now false disc st e p).2.1.length + p =
      e.length + (disconnect_step gid now false disc st e p).2.2 := by
  unfold disconnect_step process_player_connection
  rcases disc with _ | pid <;> repeat' split
  all_goals try simp_arith
  all_goals repeat' split
  all_goals first | rfl | omega | contradiction | simp_arith | simp_all

theorem line_tail_le (gid : String) (now : Nat) (cold : Bool) (reg disc : Option String)
    (st1 : ParserState) (e1 : List Embed) (p1 : Nat) :
    p1 ≤ (disconnect_step gid now cold disc
        (registered_step gid now cold reg st1 e1 p1).1
        (registered_step gid now cold reg st1 e1 p1).2.1
        (registered_step gid now cold reg st1 e1 p1).2.2).2.2 ∧
      (disconnect_step gid now cold disc
        (registered_step gid now cold reg st1 e1 p1).1
        (registered_step gid now cold reg st1 e1 p1).2.1
        (registered_step gid now cold reg st1 e1 p1).2.2).2.2 ≤ p1 + 2 := by
  have h2 := registered_step_le gid now cold reg st1 e1 p1
  have h3 := disconnect_step_le gid now cold disc
    (registered_step gid now cold reg st1 e1 p1).1
    (registered_step gid now cold reg st1 e1 p1).2.1
    (registered_step gid now cold reg st1 e1 p1).2.2
  omega

theorem line_tail_lockstep (gid : String) (now : Nat) (reg disc : Option String)
    (st1 : ParserState) (e1 : List Embed) (p1 : Nat) :
    (disconnect_step gid now false disc
        (registered_step gid now false reg st1 e1 p1).1
        (registered_step gid now false reg st1 e1 p1).2.1
        (registered_step gid now false reg st1 e1 p1).2.2).2.1.length + p1 =
      e1.length + (disconnect_step gid now false disc
        (registered_step gid now false reg st1 e1 p1).1
        (registered_step gid now false reg st1 e1 p1).2.1
        (registered_step gid now false reg st1 e1 p1).2.2).2.2 := by
  have h2 := registered_step_lockstep gid now reg st1 e1 p1
  have h3 := disconnect_step_lockstep gid now disc
    (registered_step gid now false reg st1 e1 p1).1
    (registered_step gid now false reg st1 e1 p1).2.1
    (registered_step gid now false reg st1 e1 p1).2.2
  omega

/-- One line produces at most 4 counted events (`mission_respawn`,
`mission_state_change`, `player_registered`, `player_disconnect`). -/
theorem process_line_le (gid : String) (L : Nat) (cold : Bool) (now : Nat) (line : LogLine)
    (st : ParserState) (e : List Embed) (p : Nat) :
    p ≤ (process_line gid L cold now line st e p).2.2 ∧
      (process_line gid L cold now line st e p).2.2 ≤ p + 4 := by
  have h1 := mission_block_le L cold line e p
  rcases hq : line.player_queue_join with _ | ⟨pid, pname⟩
  · simp only [process_line, hq]
    have h23 := line_tail_le gid now cold line.player_registered line.player_disconnect
      st (mission_block L cold line e p).1 (mission_block L cold line e p).2
    omega
  · simp only [process_line, hq]
    have h23 := line_tail_le gid now cold line.player_registered line.player_disconnect
      { st with player_lifecycle :=
          dinsert (gid ++ "_" ++ pid) ⟨pname, now⟩ st.player_lifecycle }
      (mission_block L cold line e p).1 (mission_block L cold line e p).2
    omega

/-- In hot mode the embed list grows in lockstep with the event
counter. -/
theorem process_line_lockstep (gid : String) (L : Nat) (now : Nat) (line : LogLine)
    (st : ParserState) (e : List Embed) (p : Nat) :
    (process_line gid L false now line st e p).2.1.length + p =
      e.length + (process_line gid L false now line st e p).2.2 := by
  have h1 := mission_block_lockstep L line e p
  rcases hq : line.player_queue_join with _ | ⟨pid, pname⟩
  · simp only [process_line, hq]
    have h23 := line_tail_lockstep gid now line.player_registered line.player_disconnect
      st (mission_block L false line e p).1 (mission_block L false line e p).2
    omega
  · simp only [process_line, hq]
    have h23 := line_tail_lockstep gid now line.player_registered line.player_disconnect
      { st with player_lifecycle :=
          dinsert (gid ++ "_" ++ pid) ⟨pname, now⟩ st.player_lifecycle }
      (mission_block L false line e p).1 (mission_block L false line e p).2
    omega

theorem parse_lines_events_le (gid : String) (L : Nat) (cold : Bool) (now : Nat) :
    ∀ (lines : List LogLine) (st : ParserState) (e : List Embed) (p : Nat),
      p ≤ L * (if cold then 5 else 2) →
      (parse_lines gid L cold now lines st e p).2.2 ≤ L * (if cold then 5 else 2) + 4 := by
  intro lines
  induction lines with
  | nil =>
    intro st e p hp
    simp only [parse_lines]
    omega
  | cons line rest ih =>
    intro st e p hp
    have hpl := process_line_le gid L cold now line st e p
    simp only [parse_lines]
    cases cold <;>
      simp only [Bool.false_eq_true, if_false, if_true] at hp ih ⊢ <;>
      split <;>
      first
        | omega
        | exact ih _ _ _ (by omega)

theorem parse_lines_lockstep (gid : String) (L : Nat) (now : Nat) :
    ∀ (lines : List LogLine) (st : ParserState) (e : List Embed) (p : Nat),
      (parse_lines gid L false now lines st e p).2.1.length + p =
        e.length + (parse_lines gid L false now lines st e p).2.2 := by
  intro lines
  induction lines with
  | nil =>
    intro st e p
    simp [parse_lines]
  | cons line rest ih =>
    intro st e p
    have h1 := process_line_lockstep gid L now line st e p
    have h2 := ih (process_line gid L false now line st e p).1
      (process_line gid L false now line st e p).2.1
      (process_line gid L false now line st e p).2.2
    simp only [parse_lines, Bool.false_eq_true, if_false] at h2 ⊢
    split
    · omega
    · omega

/-- A hot-mode line whose matches produce the per-line maximum of
counted events (mission respawn, mission state change, registration,
disconnect). -/
def lineFour : LogLine :=
  ⟨some ("GA_X", 5), some ("GA_X", "READY"), none, some "ab", some "ab"⟩

/-- C5: (1) once the event count after a line exceeds
`len(lines) × 2` in hot mode (`× 5` in cold-start mode), the remaining
lines of the range are never processed — the result does not depend on
them; (2) for any 10-line hot-mode input (in particular one whose
matches would produce more than 20 events) the number of collected
embeds never exceeds the threshold 20 plus the at-most-4 events of the
line being processed when the threshold was crossed. -/
theorem safety_breaker_spec :
    (∀ (gid : String) (L : Nat) (cold : Bool) (now : Nat) (line : LogLine)
       (rest rest' : List LogLine) (st : ParserState) (e : List Embed) (p : Nat),
      (process_line gid L cold now line st e p).2.2 > L * (if cold then 5 else 2) →
      parse_lines gid L cold now (line :: rest) st e p =
        parse_lines gid L cold now (line :: rest') st e p) ∧
    (∀ (gid : String) (now : Nat) (lines : List LogLine) (st : ParserState),
      lines.length = 10 →
      (parse_lines gid 10 false now lines st [] 0).2.1.length ≤ 10 * 2 + 4) := by
  constructor
  · intro gid L cold now line rest rest' st e p h
    simp only [parse_lines]
    rw [if_pos h, if_pos h]
  · intro gid now lines st _
    have h1 := parse_lines_events_le gid 10 false now lines st [] 0 (Nat.zero_le _)
    have h2 := parse_lines_lockstep gid 10 now lines st [] 0
    simp only [Bool.false_eq_true, if_false, List.length_nil] at h1 h2 ⊢
    omega

/-- Witness for C5: a line producing 4 events with the counter already
at the threshold 20 freezes the rest of the range, and a 10-line input
of such lines (40 potential events) collects at most 24 embeds. -/
theorem safety_breaker_spec_witness :
    parse_lines "7" 10 false 0 (lineFour :: [lineFour, lineFour]) emptyState [] 20 =
      parse_lines "7" 10 false 0 (lineFour :: []) emptyState [] 20 ∧
    (parse_lines "7" 10 false 0 (List.replicate 10 lineFour) emptyState [] 0).2.1.length
      ≤ 10 * 2 + 4 :=
  ⟨safety_breaker_spec.1 "7" 10 false 0 lineFour [lineFour, lineFour] [] emptyState [] 20
      (by decide),
   safety_breaker_spec.2 "7" 0 (List.replicate 10 lineFour) emptyState (by decide)⟩

/-! ## C3: cold-start suppression and session tracking -/

/-- The registration/disconnect matches of player `pid` on one line, in
processing order (the registration block runs before the disconnect
block within a line). -/
def line_player_events (pid : String) (line : LogLine) : List Bool :=
  (if line.player_registered = some pid then [true] else []) ++
  (if line.player_disconnect = some pid then [false] else [])

/-- All registration (`true`) / disconnect (`false`) matches of `pid`
over a line range, in processing order. -/
def player_events (pid : String) (log : List LogLine) : List Bool :=
  log.flatMap (line_player_events pid)

/-- The session-status evolution of the tracker transitions: a
registration overwrites the record with status `'online'`; a disconnect
moves an existing record to `'offline'` and is a no-op when no record
exists. -/
def apply_player_events : List Bool → Option String → Option String
  | [], s => s
  | true :: rest, _ => apply_player_events rest (some "online")
  | false :: rest, s => apply_player_events rest (s.map fun _ => "offline")

/-- The tracked status of the session stored under `key` (`none` when no
session record exists). -/
def session_status (st : ParserState) (key : String) : Option String :=
  (dfind key st.player_sessions).map PlayerSession.status

theorem string_append_left_inj (a : String) {b c : String} (h : a ++ b = a ++ c) :
    b = c := by
  have hd := congrArg String.data h
  rw [string_data_append, string_data_append] at hd
  have := List.append_cancel_left hd
  cases b; cases c; exact congrArg String.mk this

theorem apply_player_events_append (l1 l2 : List Bool) (s : Option String) :
    apply_player_events (l1 ++ l2) s = apply_player_events l2 (apply_player_events l1 s) := by
  induction l1 generalizing s with
  | nil => rfl
  | cons b r ih => cases b <;> simp [apply_player_events, ih]

theorem player_events_cons (pid : String) (line : LogLine) (rest : List LogLine) :
    player_events pid (line :: rest) =
      line_player_events pid line ++ player_events pid rest := by
  simp [player_events]

theorem registered_step_status (gid : String) (now : Nat) (cold : Bool)
    (reg : Option String) (st : ParserState) (e : List Embed) (p : Nat) (pid : String) :
    session_status (registered_step gid now cold reg st e p).1 (gid ++ "_" ++ pid) =
      apply_player_events (if reg = some pid then [true] else [])
        (session_status st (gid ++ "_" ++ pid)) := by
  rcases reg with _ | rid
  · simp [registered_step, apply_player_events]
  · by_cases hr : rid = pid
    · subst hr
      simp [registered_step, process_player_connection, session_status,
        apply_player_events, dfind_dinsert_self]
    · have hne : gid ++ "_" ++ pid ≠ gid ++ "_" ++ rid := fun h =>
        hr (string_append_left_inj (gid ++ "_") h).symm
      have hsome : ¬ (some rid = some pid) := by simp [hr]
      simp [registered_step, process_player_connection, session_status,
        apply_player_events, dfind_dinsert_ne _ _ hne, hsome]

theorem disconnect_step_status (gid : String) (now : Nat) (cold : Bool)
    (disc : Option String) (st : ParserState) (e : List Embed) (p : Nat) (pid : String) :
    session_status (disconnect_step gid now cold disc st e p).1 (gid ++ "_" ++ pid) =
      apply_player_events (if disc = some pid then [false] else [])
        (session_status st (gid ++ "_" ++ pid)) := by
  rcases disc with _ | did
  · simp [disconnect_step, apply_player_events]
  · by_cases hd : did = pid
    · subst hd
      rcases hs : dfind (gid ++ "_" ++ did) st.player_sessions with _ | sess
      · simp [disconnect_step, process_player_connection, session_status, hs,
          apply_player_events]
      · simp [disconnect_step, process_player_connection, session_status, hs,
          apply_player_events, dfind_dinsert_self]
    · have hne : gid ++ "_" ++ pid ≠ gid ++ "_" ++ did := fun h =>
        hd (string_append_left_inj (gid ++ "_") h).symm
      have hsome : ¬ (some did = some pid) := by simp [hd]
      rcases hs : dfind (gid ++ "_" ++ did) st.player_sessions with _ | sess
      · simp [disconnect_step, process_player_connection, session_status, hs,
          apply_player_events, hsome]
      · simp [disconnect_step, process_player_connection, session_status, hs,
          apply_player_events, dfind_dinsert_ne _ _ hne, hsome]

theorem line_tail_status (gid : String) (now : Nat) (cold : Bool) (reg disc : Option String)
    (st1 : ParserState) (e1 : List Embed) (p1 : Nat) (pid : String) :
    session_status (disconnect_step gid now cold disc
        (registered_step gid now cold reg st1 e1 p1).1
        (registered_step gid now cold reg st1 e1 p1).2.1
        (registered_step gid now cold reg st1 e1 p1).2.2).1 (gid ++ "_" ++ pid) =
      apply_player_events ((if reg = some pid then [true] else []) ++
        (if disc = some pid then [false] else []))
        (session_status st1 (gid ++ "_" ++ pid)) := by
  rw [apply_player_events_append, disconnect_step_status, registered_step_status]

/-- One line's effect on a player's tracked status is exactly the
line's registration/disconnect matches applied in order. -/
theorem process_line_status (gid : String) (L : Nat) (cold : Bool) (now : Nat)
    (line : LogLine) (st : ParserState) (e : List Embed) (p : Nat) (pid : String) :
    session_status (process_line gid L cold now line st e p).1 (gid ++ "_" ++ pid) =
      apply_player_events (line_player_events pid line)
        (session_status st (gid ++ "_" ++ pid)) := by
  rcases hq : line.player_queue_join with _ | ⟨qid, qname⟩
  · simp only [process_line, hq, line_player_events]
    exact line_tail_status gid now cold line.player_registered line.player_disconnect
      st (mission_block L cold line e p).1 (mission_block L cold line e p).2 pid
  · simp only [process_line, hq, line_player_events]
    exact line_tail_status gid now cold line.player_registered line.player_disconnect
      { st with player_lifecycle :=
          dinsert (gid ++ "_" ++ qid) ⟨qname, now⟩ st.player_lifecycle }
      (mission_block L cold line e p).1 (mission_block L cold line e p).2 pid

/-- In cold-start mode the per-line safety breaker can never fire (a
line produces at most 4 events against a budget of 5 per line), so the
whole range is processed and the final status of every player is the
fold of their registration/disconnect matches. -/
theorem parse_lines_cold_status (gid : String) (now : Nat) (pid : String) :
    ∀ (lines : List LogLine) (L : Nat) (st : ParserState) (e : List Embed) (p : Nat),
      p + 4 * lines.length ≤ 5 * L →
      session_status (parse_lines gid L true now lines st e p).1 (gid ++ "_" ++ pid) =
        apply_player_events (player_events pid lines)
          (session_status st (gid ++ "_" ++ pid)) := by
  intro lines
  induction lines with
  | nil =>
    intro L st e p _
    simp [parse_lines, player_events, apply_player_events]
  | cons line rest ih =>
    intro L st e p hp
    simp only [List.length_cons] at hp
    have hle := process_line_le gid L true now line st e p
    have hbreak : ¬ (process_line gid L true now line st e p).2.2 > L * 5 := by omega
    simp only [parse_lines, if_true]
    rw [if_neg hbreak]
    rw [ih L (process_line gid L true now line st e p).1
      (process_line gid L true now line st e p).2.1
      (process_line gid L true now line st e p).2.2 (by omega)]
    rw [player_events_cons, apply_player_events_append, process_line_status]

theorem apply_player_events_last_true :
    ∀ (evs : List Bool) (s : Option String), evs.getLast? = some true →
      apply_player_events evs s = some "online" := by
  intro evs
  induction evs with
  | nil => intro s h; simp at h
  | cons b rest ih =>
    intro s h
    cases rest with
    | nil =>
      simp at h
      subst h
      rfl
    | cons b2 r2 =>
      rw [List.getLast?_cons_cons] at h
      cases b
      · exact ih _ h
      · exact ih _ h

theorem apply_player_events_last_false :
    ∀ (evs : List Bool) (s : Option String), evs.getLast? = some false →
      (true ∈ evs ∨ s.isSome = true) →
      apply_player_events evs s = some "offline" := by
  intro evs
  induction evs with
  | nil => intro s h _; simp at h
  | cons b rest ih =>
    intro s h hmem
    cases rest with
    | nil =>
      simp at h
      subst h
      rcases hmem with hmem | hsome
      · simp at hmem
      · rcases s with _ | v
        · simp at hsome
        · rfl
    | cons b2 r2 =>
      rw [List.getLast?_cons_cons] at h
      cases b
      · refine ih _ h ?_
        rcases hmem with hmem | hsome
        · rcases List.mem_cons.mp hmem with h' | h'
          · exact absurd h' (by simp)
          · exact Or.inl h'
        · right
          rcases s with _ | v
          · simp at hsome
          · simp
      · exact ih _ h (Or.inr rfl)

/-- The state after `parse_log_content`\'s pre-processing checkpoint
write on a cold pass (abbreviation used by the lemmas below). -/
def cold_seed (st : ParserState) (key : String) (total now : Nat) : ParserState :=
  { st with file_states := dinsert key (FileState.mk total now false) st.file_states }

/-- On a tenant with no stored `file_states` record, a pass over a
non-empty log runs the cold-start path: the whole range is parsed in
cold mode starting from a zeroed counter. -/
theorem parse_server_logs_cold_eq (st : ParserState) (now : Nat) (g : Nat) (sid : String)
    (l0 : LogLine) (lrest : List LogLine)
    (hck : dfind (server_key g sid) st.file_states = none) :
    parse_server_logs st now g sid (l0 :: lrest) =
      finish_pass
        (parse_lines (natStr g) (l0 :: lrest).length true now (l0 :: lrest)
          (cold_seed st (server_key g sid) (l0 :: lrest).length now) [] 0).1
        (parse_lines (natStr g) (l0 :: lrest).length true now (l0 :: lrest)
          (cold_seed st (server_key g sid) (l0 :: lrest).length now) [] 0).2.1
        [Action.persist
          (cold_seed st (server_key g sid) (l0 :: lrest).length now).file_states]
        (server_key g sid) (l0 :: lrest).length now true := by
  have hck' : dfind (natStr g ++ "_" ++ sid) st.file_states = none := hck
  simp only [parse_server_logs, parse_log_content, parse_log_content_go,
    List.isEmpty_cons, List.length_cons, hck, hck', Option.map_none', Option.getD_none,
    beq_self_eq_true, Bool.or_true, Bool.true_or, if_true, Bool.false_eq_true, if_false,
    gt_iff_lt, lt_irrefl, false_and, ge_iff_le, Nat.le_zero, Nat.succ_ne_zero]
  rfl

/-- C3 amended: on a tenant\'s first-ever pass (no stored checkpoint, no
session records) zero events are handed to delivery regardless of how
many lines match, while the Session Tracker is still updated: every
player with a registration match and no later disconnect match ends
with status `\'online\'`, and every player *with a registration match*
whose last registration/disconnect match is a disconnect ends with
status `\'offline\'` (a player appearing only in disconnect matches gets
no session record at all — see the counterexample). -/
theorem cold_start_suppression (st : ParserState) (now : Nat) (g : Nat) (sid : String)
    (log : List LogLine)
    (hck : dfind (server_key g sid) st.file_states = none)
    (hfresh : st.player_sessions = []) :
    (parse_server_logs st now g sid log).2.countP Action.isEmit = 0 ∧
    (∀ pid, (player_events pid log).getLast? = some true →
      session_status (parse_server_logs st now g sid log).1 (natStr g ++ "_" ++ pid) =
        some "online") ∧
    (∀ pid, true ∈ player_events pid log →
      (player_events pid log).getLast? = some false →
      session_status (parse_server_logs st now g sid log).1 (natStr g ++ "_" ++ pid) =
        some "offline") := by
  rcases log with _ | ⟨l0, lrest⟩
  · refine ⟨rfl, ?_, ?_⟩
    · intro pid h
      simp [player_events] at h
    · intro pid hmem _
      simp [player_events] at hmem
  · rw [parse_server_logs_cold_eq st now g sid l0 lrest hck]
    have hfold := fun pid => parse_lines_cold_status (natStr g) now pid (l0 :: lrest)
      (l0 :: lrest).length
      (cold_seed st (server_key g sid) (l0 :: lrest).length now) [] 0 (by omega)
    have hempty : ∀ pid : String,
        session_status (cold_seed st (server_key g sid) (l0 :: lrest).length now)
          (natStr g ++ "_" ++ pid) = none := by
      intro pid
      show (dfind (natStr g ++ "_" ++ pid) st.player_sessions).map _ = none
      rw [hfresh]
      rfl
    refine ⟨?_, ?_, ?_⟩
    · show List.countP _ ([Action.persist _] ++ ([] : List Action) ++ [Action.persist _]) = 0
      simp [Action.isEmit]
    · intro pid hlast
      have h := hfold pid
      rw [hempty pid] at h
      show session_status (parse_lines (natStr g) (l0 :: lrest).length true now (l0 :: lrest)
        (cold_seed st (server_key g sid) (l0 :: lrest).length now) [] 0).1
        (natStr g ++ "_" ++ pid) = some "online"
      rw [h]
      exact apply_player_events_last_true _ _ hlast
    · intro pid hmem hlast
      have h := hfold pid
      rw [hempty pid] at h
      show session_status (parse_lines (natStr g) (l0 :: lrest).length true now (l0 :: lrest)
        (cold_seed st (server_key g sid) (l0 :: lrest).length now) [] 0).1
        (natStr g ++ "_" ++ pid) = some "offline"
      rw [h]
      exact apply_player_events_last_false _ _ hlast (Or.inl hmem)

/-- A line carrying only a `player_disconnect` match for id `abc`. -/
def lineDiscOnly : LogLine := ⟨none, none, none, none, some "abc"⟩

/-- C3 counterexample: on a first-ever (cold) pass over a log whose only
match is a disconnect of player `abc`, zero events are emitted — but the
tracker holds *no* session record for `abc` afterwards (a disconnect
only mutates an existing record), so the player whose last match is a
disconnect does *not* have status `'offline'` as the claim states. -/
theorem cold_start_suppression_counterexample :
    (player_events "abc" [lineDiscOnly]).getLast? = some false ∧
    (parse_server_logs emptyState 0 5 "s1" [lineDiscOnly]).2.countP Action.isEmit = 0 ∧
    session_status (parse_server_logs emptyState 0 5 "s1" [lineDiscOnly]).1
      (natStr 5 ++ "_" ++ "abc") ≠ some "offline" := by
  refine ⟨by decide, by decide, by decide⟩

/-- A line carrying a `player_queue_join` match for id `abc`. -/
def lineQueueAbc : LogLine := ⟨none, none, some ("abc", "Bob"), none, none⟩

/-- A line carrying a `player_registered` match for id `abc`. -/
def lineRegAbc : LogLine := ⟨none, none, none, some "abc", none⟩

/-- Witness for C3's amended theorem: queue-join, registration and
disconnect of `abc`, then a re-registration of `xyz`-free player —
concrete cold pass. -/
theorem cold_start_suppression_witness :
    (parse_server_logs emptyState 0 5 "s1"
      [lineQueueAbc, lineRegAbc, lineDiscOnly, lineRegAbc]).2.countP Action.isEmit = 0 ∧
    (∀ pid, (player_events pid
        [lineQueueAbc, lineRegAbc, lineDiscOnly, lineRegAbc]).getLast? = some true →
      session_status (parse_server_logs emptyState 0 5 "s1"
          [lineQueueAbc, lineRegAbc, lineDiscOnly, lineRegAbc]).1
        (natStr 5 ++ "_" ++ pid) = some "online") ∧
    (∀ pid, true ∈ player_events pid
        [lineQueueAbc, lineRegAbc, lineDiscOnly, lineRegAbc] →
      (player_events pid [lineQueueAbc, lineRegAbc, lineDiscOnly, lineRegAbc]).getLast?
        = some false →
      session_status (parse_server_logs emptyState 0 5 "s1"
          [lineQueueAbc, lineRegAbc, lineDiscOnly, lineRegAbc]).1
        (natStr 5 ++ "_" ++ pid) = some "offline") :=
  cold_start_suppression emptyState 0 5 "s1"
    [lineQueueAbc, lineRegAbc, lineDiscOnly, lineRegAbc] (by decide) rfl

end UnifiedLogParser
